import Mathlib

/-!
Shallow embedding of the cities-loader program (src/main.rs).

The program is a two-command CLI: `upload` extracts a zipped CSV of city
rows, parses each row into a `CityRecord`, maps it to a `NewCity` carrying
a geometry point with SRID 4326, and bulk-inserts batches of 10000 rows;
`bench` runs 500 "order by 2D distance, limit 500" queries at random points.

Machine floats are modelled as rationals (the program only moves coordinate
values around; it performs no float arithmetic).  Side effects (progress
prints, bulk inserts, migrations, file operations) are modelled as an event
trace; a fatal `panic`/`expect` failure is modelled by cutting the trace
short and returning `false` as the success flag.
-/

/-- Geometry point as in postgis_diesel: x, y and an optional SRID. -/
structure Point where
  x : ℚ
  y : ℚ
  srid : Option Nat
deriving DecidableEq, Repr

/-- `Point::new(x, y, srid)` from postgis_diesel. -/
def Point.new (x y : ℚ) (srid : Option Nat) : Point := ⟨x, y, srid⟩

/-- One parsed CSV row (struct `CityRecord` in main.rs). -/
structure CityRecord where
  country : String
  city : String
  accent_city : String
  region : String
  latitude : ℚ
  longitude : ℚ
deriving DecidableEq, Repr

/-- One insertable row (struct `NewCity` in main.rs). -/
structure NewCity where
  country : String
  city : String
  accent_city : String
  region : String
  location : Point
deriving DecidableEq, Repr

/-- `impl From<CityRecord> for NewCity` (main.rs lines 132-142): copy the four
string fields verbatim and build the point as
`Point::new(cr.longitude, cr.latitude, Some(4326))`. -/
def NewCity.fromCityRecord (cr : CityRecord) : NewCity :=
  { country := cr.country
    city := cr.city
    accent_city := cr.accent_city
    region := cr.region
    location := Point.new cr.longitude cr.latitude (some 4326) }

/-- `let batch_size = 10000` in `insert_data`. -/
def batchSize : Nat := 10000

/-- Observable events of the upload command, in program order. -/
inductive Event where
  | getConn
  | migrate
  | openArchive
  | extractArchive
  | openCsv
  | parseRow (r : Option CityRecord)
  | progress (n : Nat)
  | insert (batch : List NewCity)
deriving DecidableEq, Repr

/-- The `for result in rdr.deserialize::<CityRecord>()` loop of `insert_data`
(main.rs lines 100-119), followed by the final-partial-batch flush
(lines 112-119).  A CSV row is `some cr` when it parses and `none` when
deserialization fails (in which case `result.unwrap()` panics: the trace
stops and the success flag is `false`).  State: the `cities` buffer and
`batch_counter`. -/
def insertLoop : List (Option CityRecord) → List NewCity → Nat → List Event × Bool
  | [], cities, batch_counter =>
      if cities.isEmpty then ([], true)
      else ([.progress (batch_counter + 1), .insert cities], true)
  | none :: _, _, _ => ([.parseRow none], false)
  | some cr :: rest, cities, batch_counter =>
      let cities2 := cities ++ [NewCity.fromCityRecord cr]
      if cities2.length = batchSize then
        let res := insertLoop rest [] (batch_counter + 1)
        (.parseRow (some cr) :: .progress batch_counter :: .insert cities2 :: res.1, res.2)
      else
        let res := insertLoop rest cities2 batch_counter
        (.parseRow (some cr) :: res.1, res.2)

/-- `insert_data` (main.rs lines 86-120): acquire a connection, run the
embedded migrations, open and extract `./data/cities.txt.zip`, open the
CSV, then run the batching loop with an empty buffer and `batch_counter = 0`.
`migrationOk` models whether `run_pending_migrations` succeeds; on failure
the `expect` panics before any file or insert operation. -/
def insert_data (migrationOk : Bool) (rows : List (Option CityRecord)) :
    List Event × Bool :=
  if migrationOk then
    let res := insertLoop rows [] 0
    ([.getConn, .migrate, .openArchive, .extractArchive, .openCsv] ++ res.1, res.2)
  else
    ([.getConn, .migrate], false)

/-- The bulk-insert payloads of a trace, in order of issue. -/
def insertsOf (evs : List Event) : List (List NewCity) :=
  evs.filterMap fun e =>
    match e with
    | .insert b => some b
    | _ => none

/-- The batch numbers printed by progress lines, in order of printing. -/
def progressOf (evs : List Event) : List Nat :=
  evs.filterMap fun e =>
    match e with
    | .progress n => some n
    | _ => none

/-- The CSV parse results read from the input, in reading order. -/
def parsesOf (evs : List Event) : List (Option CityRecord) :=
  evs.filterMap fun e =>
    match e with
    | .parseRow r => some r
    | _ => none

/-- Whether an event is a progress line. -/
def isProgress : Event → Bool
  | .progress _ => true
  | _ => false

/-- Whether an event is one the batching loop itself can emit (a parse, a
progress line or an insert), as opposed to the setup steps that precede it. -/
def loopEvent : Event → Bool
  | .parseRow _ => true
  | .progress _ => true
  | .insert _ => true
  | _ => false

/-- Split a list into consecutive chunks of `k` elements; the last chunk is
shorter when `k` does not divide the length. -/
def chunk (k : Nat) (l : List α) : List (List α) :=
  if l.isEmpty ∨ k = 0 then []
  else l.take k :: chunk k (l.drop k)
termination_by l.length
decreasing_by
  rename_i h
  push_neg at h
  have h2 : 0 < l.length := by
    cases l with
    | nil => exact absurd rfl h.1
    | cons a t => simp
  simp only [List.length_drop]
  omega

/-- The chunk lengths of a list of length `n` split into chunks of `k`. -/
def chunkSizes (k n : Nat) : List Nat :=
  if n = 0 ∨ k = 0 then []
  else min k n :: chunkSizes k (n - k)
termination_by n
decreasing_by
  rename_i h
  push_neg at h
  omega

/-- The rows read up to and including the first parse failure (the whole
input when every row parses). -/
def readRows : List (Option CityRecord) → List (Option CityRecord)
  | [] => []
  | none :: _ => [none]
  | some cr :: rest => some cr :: readRows rest

/-- r2d2 `Builder` configuration used by `init_connection_pool`. -/
structure PoolConfig where
  max_size : Nat
  min_idle : Option Nat
  max_lifetime_secs : Option Nat
deriving DecidableEq, Repr

/-- A built connection pool (only its configuration is observable here). -/
structure Pool where
  config : PoolConfig
deriving DecidableEq, Repr

/-- `init_connection_pool` (main.rs lines 28-38): read `DATABASE_URL`
(fatal when absent), then build the pool with max size 20, min idle 1 and
max lifetime 30 seconds (fatal when the build fails).  `database_url` is
the environment lookup result and `buildOk` models whether `build` succeeds;
`none` is a fatal termination. -/
def init_connection_pool (database_url : Option String) (buildOk : Bool) :
    Option Pool :=
  match database_url with
  | none => none
  | some _ =>
      if buildOk then
        some { config := { max_size := 20, min_idle := some 1, max_lifetime_secs := some 30 } }
      else none

/-- One benchmark query: order the `cities` table by 2D distance from a
point, with a row limit. -/
structure Query where
  table_name : String
  ordered_by_distance_from : Point
  limit : Nat
deriving DecidableEq, Repr

/-- The query built in one `bench_get` iteration (main.rs lines 70-80) from
the iteration's two random draws: the first draw (`gen_range(-90.0..90.0)`)
is passed as the point's x and the second (`gen_range(-180.0..180.0)`) as
its y, with SRID 4326; `limit(500)` on the `cities` table. -/
def benchQuery (d : ℚ × ℚ) : Query :=
  { table_name := "cities"
    ordered_by_distance_from := Point.new d.1 d.2 (some 4326)
    limit := 500 }

/-- The ranges the two random draws of one iteration come from:
`rng.gen_range(-90.0..90.0)` for the first, `rng.gen_range(-180.0..180.0)`
for the second. -/
def validDraw (d : ℚ × ℚ) : Prop :=
  (-90 ≤ d.1 ∧ d.1 < 90) ∧ (-180 ≤ d.2 ∧ d.2 < 180)

instance (d : ℚ × ℚ) : Decidable (validDraw d) := by
  unfold validDraw
  infer_instance

/-- Observable events of the bench command. -/
inductive BenchEvent where
  | acquireConn
  | query (q : Query)
  | printElapsed
  | aborted
deriving DecidableEq, Repr

/-- The `for _ in 0..500` loop of `bench_get`: at iteration `i` (with `rem`
iterations left) issue the query for draw `draws i`; when `execOk i` is
false the `expect` panics and the remaining iterations are abandoned. -/
def benchLoop (draws : Nat → ℚ × ℚ) (execOk : Nat → Bool) : Nat → Nat → List BenchEvent
  | _, 0 => [.printElapsed]
  | i, rem + 1 =>
      .query (benchQuery (draws i)) ::
        (if execOk i then benchLoop draws execOk (i + 1) rem else [.aborted])

/-- `bench_get` (main.rs lines 65-84): acquire one pooled connection, then
run 500 query iterations, then print the elapsed time.  `draws i` gives the
two random values generated in iteration `i`; `execOk i` models whether the
query execution of iteration `i` succeeds. -/
def bench_get (draws : Nat → ℚ × ℚ) (execOk : Nat → Bool) : List BenchEvent :=
  .acquireConn :: benchLoop draws execOk 0 500

/-- A sample well-formed record for concrete instantiations. -/
def sampleRecord : CityRecord :=
  { country := "fr"
    city := "paris"
    accent_city := "Paris"
    region := "A8"
    latitude := 4
    longitude := 7 }

/-! ### Lemmas about `chunk` and `chunkSizes` -/

lemma chunk_nil (k : Nat) : chunk k ([] : List α) = [] := by
  unfold chunk
  simp

lemma chunk_eq_cons (k : Nat) (l : List α) (hl : l ≠ []) (hk : k ≠ 0) :
    chunk k l = l.take k :: chunk k (l.drop k) := by
  rw [chunk]
  simp [hl, hk]

lemma chunk_cons (k : Nat) (c t : List α) (hc : c.length = k) (hk : k ≠ 0) :
    chunk k (c ++ t) = c :: chunk k t := by
  have hcne : c ≠ [] := by
    intro h
    rw [h] at hc
    exact hk hc.symm
  have hne : c ++ t ≠ [] := by
    simp [hcne]
  rw [chunk_eq_cons k _ hne hk, ← hc, List.take_left, List.drop_left]

lemma chunk_small (k : Nat) (l : List α) (hl : l ≠ []) (h : l.length ≤ k) :
    chunk k l = [l] := by
  have hk : k ≠ 0 := by
    have : 0 < l.length := List.length_pos.mpr hl
    omega
  rw [chunk_eq_cons k l hl hk, List.take_of_length_le h, List.drop_eq_nil_of_le h, chunk_nil]

lemma chunk_flatten (k : Nat) (hk : k ≠ 0) (l : List α) : (chunk k l).flatten = l := by
  by_cases hl : l = []
  · rw [hl, chunk_nil]
    rfl
  · rw [chunk_eq_cons k l hl hk, List.flatten_cons, chunk_flatten k hk (l.drop k),
      List.take_append_drop]
termination_by l.length
decreasing_by
  have : 0 < l.length := List.length_pos.mpr hl
  simp only [List.length_drop]
  omega

lemma chunkSizes_zero (k : Nat) : chunkSizes k 0 = [] := by
  unfold chunkSizes
  simp

lemma chunkSizes_eq_cons (k n : Nat) (hn : n ≠ 0) (hk : k ≠ 0) :
    chunkSizes k n = min k n :: chunkSizes k (n - k) := by
  rw [chunkSizes]
  simp [hn, hk]

lemma chunk_map_length (k : Nat) (hk : k ≠ 0) (l : List α) :
    (chunk k l).map List.length = chunkSizes k l.length := by
  by_cases hl : l = []
  · rw [hl, chunk_nil]
    simp [chunkSizes_zero]
  · have hn : l.length ≠ 0 := by
      have : 0 < l.length := List.length_pos.mpr hl
      omega
    rw [chunk_eq_cons k l hl hk, chunkSizes_eq_cons k l.length hn hk, List.map_cons,
      List.length_take, chunk_map_length k hk (l.drop k), List.length_drop]
termination_by l.length
decreasing_by
  have : 0 < l.length := List.length_pos.mpr hl
  simp only [List.length_drop]
  omega

lemma chunkSizes_sum (n : Nat) : (chunkSizes 10000 n).sum = n := by
  by_cases hn : n = 0
  · rw [hn, chunkSizes_zero]
    rfl
  · rw [chunkSizes_eq_cons 10000 n hn (by omega), List.sum_cons, chunkSizes_sum (n - 10000)]
    omega
termination_by n
decreasing_by omega

lemma chunkSizes_length (n : Nat) : (chunkSizes 10000 n).length = (n + 9999) / 10000 := by
  by_cases hn : n = 0
  · rw [hn, chunkSizes_zero]
    rfl
  · rw [chunkSizes_eq_cons 10000 n hn (by omega), List.length_cons,
      chunkSizes_length (n - 10000)]
    omega
termination_by n
decreasing_by omega

lemma chunkSizes_dropLast (n : Nat) :
    ∀ s ∈ (chunkSizes 10000 n).dropLast, s = 10000 := by
  intro s hs
  by_cases hn : n = 0
  · rw [hn, chunkSizes_zero] at hs
    simp at hs
  · rw [chunkSizes_eq_cons 10000 n hn (by omega)] at hs
    by_cases hrest : n - 10000 = 0
    · rw [hrest, chunkSizes_zero] at hs
      simp at hs
    · rw [chunkSizes_eq_cons 10000 (n - 10000) hrest (by omega)] at hs
      rw [List.dropLast_cons₂] at hs
      rcases List.mem_cons.mp hs with h | h
      · omega
      · rw [← chunkSizes_eq_cons 10000 (n - 10000) hrest (by omega)] at h
        exact chunkSizes_dropLast (n - 10000) s h
termination_by n
decreasing_by omega

lemma chunkSizes_getLast (n : Nat) (h : n % 10000 ≠ 0) :
    (chunkSizes 10000 n).getLast? = some (n % 10000) := by
  have hn : n ≠ 0 := by omega
  by_cases hrest : n - 10000 = 0
  · rw [chunkSizes_eq_cons 10000 n hn (by omega), hrest, chunkSizes_zero]
    have hmin : min 10000 n = n := by omega
    have hmod : n % 10000 = n := by omega
    rw [hmin, hmod, List.getLast?_singleton]
  · have htail := chunkSizes_getLast (n - 10000) (by omega)
    have hmod : (n - 10000) % 10000 = n % 10000 := by omega
    rw [hmod] at htail
    rw [chunkSizes_eq_cons 10000 (n - 10000) hrest (by omega)] at htail
    rw [chunkSizes_eq_cons 10000 n hn (by omega),
      chunkSizes_eq_cons 10000 (n - 10000) hrest (by omega), List.getLast?_cons_cons]
    exact htail
termination_by n
decreasing_by omega

lemma chunkSizes_all_full (n : Nat) (h : n % 10000 = 0) :
    ∀ s ∈ chunkSizes 10000 n, s = 10000 := by
  intro s hs
  by_cases hn : n = 0
  · rw [hn, chunkSizes_zero] at hs
    simp at hs
  · rw [chunkSizes_eq_cons 10000 n hn (by omega)] at hs
    rcases List.mem_cons.mp hs with h1 | h1
    · omega
    · exact chunkSizes_all_full (n - 10000) (by omega) s h1
termination_by n
decreasing_by omega

/-! ### Unfolding equations for `insertLoop` -/

lemma insertLoop_nil (cities : List NewCity) (bc : Nat) (h : cities ≠ []) :
    insertLoop [] cities bc = ([.progress (bc + 1), .insert cities], true) := by
  have hb : cities.isEmpty = false := by
    cases cities with
    | nil => exact absurd rfl h
    | cons a t => rfl
  simp [insertLoop, hb]

lemma insertLoop_none (rest : List (Option CityRecord)) (cities : List NewCity) (bc : Nat) :
    insertLoop (none :: rest) cities bc = ([.parseRow none], false) := rfl

lemma insertLoop_some_full (cr : CityRecord) (rest : List (Option CityRecord))
    (cities : List NewCity) (bc : Nat)
    (h : (cities ++ [NewCity.fromCityRecord cr]).length = batchSize) :
    insertLoop (some cr :: rest) cities bc
      = (.parseRow (some cr) :: .progress bc ::
          .insert (cities ++ [NewCity.fromCityRecord cr]) :: (insertLoop rest [] (bc + 1)).1,
          (insertLoop rest [] (bc + 1)).2) := by
  simp only [insertLoop]
  rw [if_pos h]

lemma insertLoop_some_notfull (cr : CityRecord) (rest : List (Option CityRecord))
    (cities : List NewCity) (bc : Nat)
    (h : ¬(cities ++ [NewCity.fromCityRecord cr]).length = batchSize) :
    insertLoop (some cr :: rest) cities bc
      = (.parseRow (some cr) ::
          (insertLoop rest (cities ++ [NewCity.fromCityRecord cr]) bc).1,
          (insertLoop rest (cities ++ [NewCity.fromCityRecord cr]) bc).2) := by
  simp only [insertLoop]
  rw [if_neg h]

/-! ### The loop on well-formed inputs -/

lemma insertLoop_map_some_ok (rs : List CityRecord) :
    ∀ buf bc, (insertLoop (rs.map some) buf bc).2 = true := by
  induction rs with
  | nil =>
      intro buf bc
      by_cases h : buf = []
      · subst h
        rfl
      · rw [List.map_nil, insertLoop_nil buf bc h]
  | cons r t ih =>
      intro buf bc
      rw [List.map_cons]
      by_cases h : (buf ++ [NewCity.fromCityRecord r]).length = batchSize
      · rw [insertLoop_some_full r (t.map some) buf bc h]
        exact ih [] (bc + 1)
      · rw [insertLoop_some_notfull r (t.map some) buf bc h]
        exact ih _ bc

lemma insertLoop_map_some_inserts (rs : List CityRecord) :
    ∀ buf bc, buf.length < batchSize →
      insertsOf (insertLoop (rs.map some) buf bc).1
        = chunk batchSize (buf ++ rs.map NewCity.fromCityRecord) := by
  induction rs with
  | nil =>
      intro buf bc h
      simp only [List.map_nil, List.append_nil]
      by_cases hb : buf = []
      · subst hb
        rw [chunk_nil]
        rfl
      · rw [insertLoop_nil buf bc hb, chunk_small batchSize buf hb (le_of_lt h)]
        simp [insertsOf]
  | cons r t ih =>
      intro buf bc h
      rw [List.map_cons, List.map_cons]
      by_cases hfull : (buf ++ [NewCity.fromCityRecord r]).length = batchSize
      · rw [insertLoop_some_full r (t.map some) buf bc hfull]
        have hstep : insertsOf (Event.parseRow (some r) :: Event.progress bc ::
            Event.insert (buf ++ [NewCity.fromCityRecord r]) ::
              (insertLoop (t.map some) [] (bc + 1)).1)
            = (buf ++ [NewCity.fromCityRecord r])
                :: insertsOf (insertLoop (t.map some) [] (bc + 1)).1 := by
          simp [insertsOf]
        rw [hstep, ih [] (bc + 1) (by decide), List.nil_append]
        have hassoc : buf ++ NewCity.fromCityRecord r :: t.map NewCity.fromCityRecord
            = (buf ++ [NewCity.fromCityRecord r]) ++ t.map NewCity.fromCityRecord := by
          simp
        rw [hassoc, chunk_cons batchSize _ _ hfull (by decide)]
      · have h2 : (buf ++ [NewCity.fromCityRecord r]).length < batchSize := by
          simp only [List.length_append, List.length_cons, List.length_nil] at hfull ⊢
          omega
        rw [insertLoop_some_notfull r (t.map some) buf bc hfull]
        have hstep : insertsOf (Event.parseRow (some r) ::
            (insertLoop (t.map some) (buf ++ [NewCity.fromCityRecord r]) bc).1)
            = insertsOf (insertLoop (t.map some) (buf ++ [NewCity.fromCityRecord r]) bc).1 := by
          simp [insertsOf]
        rw [hstep, ih _ bc h2]
        congr 1
        simp

lemma insertLoop_map_some_progress (rs : List CityRecord) :
    ∀ buf bc, buf.length < batchSize →
      progressOf (insertLoop (rs.map some) buf bc).1
        = List.range' bc ((buf.length + rs.length) / batchSize)
          ++ (if (buf.length + rs.length) % batchSize = 0 then []
              else [bc + (buf.length + rs.length) / batchSize + 1]) := by
  induction rs with
  | nil =>
      intro buf bc h
      simp only [List.map_nil, List.length_nil, Nat.add_zero]
      by_cases hb : buf = []
      · subst hb
        simp [progressOf, insertLoop]
      · rw [insertLoop_nil buf bc hb]
        have h0 : 0 < buf.length := List.length_pos.mpr hb
        rw [Nat.div_eq_of_lt h, Nat.mod_eq_of_lt h, if_neg (by omega)]
        simp [progressOf]
  | cons r t ih =>
      intro buf bc h
      simp only [List.map_cons, List.length_cons]
      by_cases hfull : (buf ++ [NewCity.fromCityRecord r]).length = batchSize
      · rw [insertLoop_some_full r (t.map some) buf bc hfull]
        have hstep : progressOf (Event.parseRow (some r) :: Event.progress bc ::
            Event.insert (buf ++ [NewCity.fromCityRecord r]) ::
              (insertLoop (t.map some) [] (bc + 1)).1)
            = bc :: progressOf (insertLoop (t.map some) [] (bc + 1)).1 := by
          simp [progressOf]
        have hlen : buf.length + 1 = batchSize := by
          simpa using hfull
        rw [hstep, ih [] (bc + 1) (by decide)]
        simp only [List.length_nil, Nat.zero_add]
        rw [show buf.length + (t.length + 1) = t.length + batchSize by omega,
          Nat.add_div_right _ (by decide : 0 < batchSize), Nat.add_mod_right,
          List.range'_succ,
          show bc + (t.length / batchSize + 1) + 1 = bc + 1 + t.length / batchSize + 1
            by omega]
        simp
      · have h2 : (buf ++ [NewCity.fromCityRecord r]).length < batchSize := by
          simp only [List.length_append, List.length_cons, List.length_nil] at hfull ⊢
          omega
        rw [insertLoop_some_notfull r (t.map some) buf bc hfull]
        have hstep : progressOf (Event.parseRow (some r) ::
            (insertLoop (t.map some) (buf ++ [NewCity.fromCityRecord r]) bc).1)
            = progressOf (insertLoop (t.map some) (buf ++ [NewCity.fromCityRecord r]) bc).1 := by
          simp [progressOf]
        rw [hstep, ih _ bc h2]
        simp only [List.length_append, List.length_cons, List.length_nil]
        rw [show buf.length + 1 + t.length = buf.length + (t.length + 1) by omega]

lemma insertLoop_parses (rows : List (Option CityRecord)) :
    ∀ buf bc, parsesOf (insertLoop rows buf bc).1 = readRows rows := by
  induction rows with
  | nil =>
      intro buf bc
      by_cases hb : buf = []
      · subst hb
        rfl
      · rw [insertLoop_nil buf bc hb]
        simp [parsesOf, readRows]
  | cons o rest ih =>
      intro buf bc
      cases o with
      | none =>
          rw [insertLoop_none]
          simp [parsesOf, readRows]
      | some cr =>
          by_cases hfull : (buf ++ [NewCity.fromCityRecord cr]).length = batchSize
          · rw [insertLoop_some_full cr rest buf bc hfull]
            have hstep : parsesOf (Event.parseRow (some cr) :: Event.progress bc ::
                Event.insert (buf ++ [NewCity.fromCityRecord cr]) ::
                  (insertLoop rest [] (bc + 1)).1)
                = some cr :: parsesOf (insertLoop rest [] (bc + 1)).1 := by
              simp [parsesOf]
            rw [hstep, ih [] (bc + 1)]
            rfl
          · rw [insertLoop_some_notfull cr rest buf bc hfull]
            have hstep : parsesOf (Event.parseRow (some cr) ::
                (insertLoop rest (buf ++ [NewCity.fromCityRecord cr]) bc).1)
                = some cr
                    :: parsesOf (insertLoop rest (buf ++ [NewCity.fromCityRecord cr]) bc).1 := by
              simp [parsesOf]
            rw [hstep, ih _ bc]
            rfl

lemma insertLoop_fail_flag (pre : List CityRecord) :
    ∀ (post : List (Option CityRecord)) buf bc,
      (insertLoop (pre.map some ++ none :: post) buf bc).2 = false := by
  induction pre with
  | nil =>
      intro post buf bc
      rw [List.map_nil, List.nil_append, insertLoop_none]
  | cons r t ih =>
      intro post buf bc
      rw [List.map_cons, List.cons_append]
      by_cases hfull : (buf ++ [NewCity.fromCityRecord r]).length = batchSize
      · rw [insertLoop_some_full r (t.map some ++ none :: post) buf bc hfull]
        exact ih post [] (bc + 1)
      · rw [insertLoop_some_notfull r (t.map some ++ none :: post) buf bc hfull]
        exact ih post _ bc

lemma insertLoop_fail_inserts (pre : List CityRecord) :
    ∀ (post : List (Option CityRecord)) buf bc, buf.length < batchSize →
      insertsOf (insertLoop (pre.map some ++ none :: post) buf bc).1
        = chunk batchSize ((buf ++ pre.map NewCity.fromCityRecord).take
            (batchSize * ((buf.length + pre.length) / batchSize))) := by
  induction pre with
  | nil =>
      intro post buf bc h
      rw [List.map_nil, List.nil_append, insertLoop_none, List.map_nil, List.append_nil,
        List.length_nil, Nat.add_zero, Nat.div_eq_of_lt h, Nat.mul_zero, List.take_zero,
        chunk_nil]
      rfl
  | cons r t ih =>
      intro post buf bc h
      rw [List.map_cons, List.cons_append, List.map_cons, List.length_cons]
      by_cases hfull : (buf ++ [NewCity.fromCityRecord r]).length = batchSize
      · rw [insertLoop_some_full r (t.map some ++ none :: post) buf bc hfull]
        have hstep : insertsOf (Event.parseRow (some r) :: Event.progress bc ::
            Event.insert (buf ++ [NewCity.fromCityRecord r]) ::
              (insertLoop (t.map some ++ none :: post) [] (bc + 1)).1)
            = (buf ++ [NewCity.fromCityRecord r])
                :: insertsOf (insertLoop (t.map some ++ none :: post) [] (bc + 1)).1 := by
          simp [insertsOf]
        rw [hstep, ih post [] (bc + 1) (by decide)]
        simp only [List.length_nil, Nat.zero_add, List.nil_append]
        have hlen : buf.length + 1 = batchSize := by
          simpa using hfull
        rw [show buf.length + (t.length + 1) = t.length + batchSize by omega,
          Nat.add_div_right _ (by decide : 0 < batchSize), Nat.mul_add, Nat.mul_one]
        have hassoc : buf ++ NewCity.fromCityRecord r :: t.map NewCity.fromCityRecord
            = (buf ++ [NewCity.fromCityRecord r]) ++ t.map NewCity.fromCityRecord := by
          simp
        rw [hassoc, show batchSize * (t.length / batchSize) + batchSize
            = (buf ++ [NewCity.fromCityRecord r]).length + batchSize * (t.length / batchSize)
            by omega,
          List.take_add, List.take_left, List.drop_left,
          chunk_cons batchSize _ _ hfull (by decide)]
      · have h2 : (buf ++ [NewCity.fromCityRecord r]).length < batchSize := by
          simp only [List.length_append, List.length_cons, List.length_nil] at hfull ⊢
          omega
        rw [insertLoop_some_notfull r (t.map some ++ none :: post) buf bc hfull]
        have hstep : insertsOf (Event.parseRow (some r) ::
            (insertLoop (t.map some ++ none :: post)
              (buf ++ [NewCity.fromCityRecord r]) bc).1)
            = insertsOf (insertLoop (t.map some ++ none :: post)
                (buf ++ [NewCity.fromCityRecord r]) bc).1 := by
          simp [insertsOf]
        rw [hstep, ih post _ bc h2]
        simp only [List.length_append, List.length_cons, List.length_nil]
        rw [show buf.length + 1 + t.length = buf.length + (t.length + 1) by omega]
        congr 2
        simp

lemma insertLoop_events_are_loop_events (rows : List (Option CityRecord)) :
    ∀ buf bc e, e ∈ (insertLoop rows buf bc).1 → loopEvent e = true := by
  induction rows with
  | nil =>
      intro buf bc e he
      by_cases hb : buf = []
      · subst hb
        simp [insertLoop] at he
      · rw [insertLoop_nil buf bc hb] at he
        simp only [List.mem_cons, List.not_mem_nil, or_false] at he
        rcases he with rfl | rfl <;> rfl
  | cons o rest ih =>
      intro buf bc e he
      cases o with
      | none =>
          rw [insertLoop_none] at he
          simp only [List.mem_cons, List.not_mem_nil, or_false] at he
          subst he
          rfl
      | some cr =>
          by_cases hfull : (buf ++ [NewCity.fromCityRecord cr]).length = batchSize
          · rw [insertLoop_some_full cr rest buf bc hfull] at he
            simp only [List.mem_cons] at he
            rcases he with rfl | rfl | rfl | he
            · rfl
            · rfl
            · rfl
            · exact ih [] (bc + 1) e he
          · rw [insertLoop_some_notfull cr rest buf bc hfull] at he
            simp only [List.mem_cons] at he
            rcases he with rfl | he
            · rfl
            · exact ih _ bc e he

lemma insertLoop_progress_before_insert (rows : List (Option CityRecord)) :
    ∀ buf bc i b, (insertLoop rows buf bc).1[i]? = some (.insert b) →
      1 ≤ i ∧ ((insertLoop rows buf bc).1[i - 1]?.map isProgress) = some true := by
  induction rows with
  | nil =>
      intro buf bc i b hi
      by_cases hb : buf = []
      · subst hb
        simp [insertLoop] at hi
      · rw [insertLoop_nil buf bc hb] at hi ⊢
        match i with
        | 0 => simp at hi
        | 1 => exact ⟨le_refl 1, rfl⟩
        | n + 2 =>
            rw [List.getElem?_cons_succ, List.getElem?_cons_succ] at hi
            simp at hi
  | cons o rest ih =>
      intro buf bc i b hi
      cases o with
      | none =>
          rw [insertLoop_none] at hi
          match i with
          | 0 => simp at hi
          | n + 1 =>
              rw [List.getElem?_cons_succ] at hi
              simp at hi
      | some cr =>
          by_cases hfull : (buf ++ [NewCity.fromCityRecord cr]).length = batchSize
          · rw [insertLoop_some_full cr rest buf bc hfull] at hi ⊢
            match i with
            | 0 => simp at hi
            | 1 => simp at hi
            | 2 => exact ⟨by omega, rfl⟩
            | n + 3 =>
                rw [List.getElem?_cons_succ, List.getElem?_cons_succ,
                  List.getElem?_cons_succ] at hi
                obtain ⟨h1, h2⟩ := ih [] (bc + 1) n b hi
                refine ⟨by omega, ?_⟩
                match n, h1 with
                | m + 1, _ =>
                    rw [show m + 1 + 3 - 1 = (m + 1 + 1) + 1 by omega,
                      List.getElem?_cons_succ, List.getElem?_cons_succ,
                      List.getElem?_cons_succ]
                    exact h2
          · rw [insertLoop_some_notfull cr rest buf bc hfull] at hi ⊢
            match i with
            | 0 => simp at hi
            | n + 1 =>
                rw [List.getElem?_cons_succ] at hi
                obtain ⟨h1, h2⟩ := ih _ bc n b hi
                refine ⟨by omega, ?_⟩
                match n, h1 with
                | m + 1, _ =>
                    rw [show m + 1 + 1 - 1 = m + 1 by omega, List.getElem?_cons_succ]
                    exact h2

lemma insertLoop_srid (rows : List (Option CityRecord)) :
    ∀ buf bc, (∀ c ∈ buf, c.location.srid = some 4326) →
      ∀ b ∈ insertsOf (insertLoop rows buf bc).1, ∀ c ∈ b,
        c.location.srid = some 4326 := by
  induction rows with
  | nil =>
      intro buf bc hbuf b hb c hc
      by_cases hnil : buf = []
      · subst hnil
        simp [insertLoop, insertsOf] at hb
      · rw [insertLoop_nil buf bc hnil] at hb
        simp [insertsOf] at hb
        subst hb
        exact hbuf c hc
  | cons o rest ih =>
      intro buf bc hbuf b hb c hc
      cases o with
      | none =>
          rw [insertLoop_none] at hb
          simp [insertsOf] at hb
      | some cr =>
          have hbuf2 : ∀ c ∈ buf ++ [NewCity.fromCityRecord cr],
              c.location.srid = some 4326 := by
            intro c hc
            rcases List.mem_append.mp hc with h | h
            · exact hbuf c h
            · rcases List.mem_singleton.mp h with rfl
              rfl
          by_cases hfull : (buf ++ [NewCity.fromCityRecord cr]).length = batchSize
          · rw [insertLoop_some_full cr rest buf bc hfull] at hb
            have hsplit : b = buf ++ [NewCity.fromCityRecord cr]
                ∨ b ∈ insertsOf (insertLoop rest [] (bc + 1)).1 := by
              simpa [insertsOf] using hb
            rcases hsplit with rfl | hmem
            · exact hbuf2 c hc
            · exact ih [] (bc + 1) (by simp) b hmem c hc
          · rw [insertLoop_some_notfull cr rest buf bc hfull] at hb
            have hmem : b ∈ insertsOf
                (insertLoop rest (buf ++ [NewCity.fromCityRecord cr]) bc).1 := by
              simpa [insertsOf] using hb
            exact ih _ bc hbuf2 b hmem c hc

/-! ### Projections of the full upload trace -/

lemma insert_data_true_fst (rows : List (Option CityRecord)) :
    (insert_data true rows).1
      = Event.getConn :: Event.migrate :: Event.openArchive :: Event.extractArchive ::
          Event.openCsv :: (insertLoop rows [] 0).1 := rfl

lemma insert_data_true_snd (rows : List (Option CityRecord)) :
    (insert_data true rows).2 = (insertLoop rows [] 0).2 := rfl

lemma insertsOf_insert_data (rows : List (Option CityRecord)) :
    insertsOf (insert_data true rows).1 = insertsOf (insertLoop rows [] 0).1 := by
  rw [insert_data_true_fst]
  simp [insertsOf]

lemma progressOf_insert_data (rows : List (Option CityRecord)) :
    progressOf (insert_data true rows).1 = progressOf (insertLoop rows [] 0).1 := by
  rw [insert_data_true_fst]
  simp [progressOf]

lemma parsesOf_insert_data (rows : List (Option CityRecord)) :
    parsesOf (insert_data true rows).1 = parsesOf (insertLoop rows [] 0).1 := by
  rw [insert_data_true_fst]
  simp [parsesOf]

lemma readRows_map_some_append_none (pre : List CityRecord)
    (post : List (Option CityRecord)) :
    readRows (pre.map some ++ none :: post) = pre.map some ++ [none] := by
  induction pre with
  | nil => rfl
  | cons r t ih =>
      simp only [List.map_cons, List.cons_append]
      show some r :: readRows (t.map some ++ none :: post) = _
      rw [ih]

/-! ### Lemmas about the benchmark loop -/

lemma benchLoop_success (draws : Nat → ℚ × ℚ) (execOk : Nat → Bool) :
    ∀ rem i, (∀ t, t < rem → execOk (i + t) = true) →
      benchLoop draws execOk i rem
        = ((List.range' i rem).map fun t => BenchEvent.query (benchQuery (draws t)))
          ++ [BenchEvent.printElapsed] := by
  intro rem
  induction rem with
  | zero =>
      intro i h
      simp [benchLoop]
  | succ n ihn =>
      intro i h
      have h0 : execOk i = true := by simpa using h 0 (by omega)
      simp only [benchLoop]
      rw [if_pos h0, ihn (i + 1) (fun t ht => by
        rw [show i + 1 + t = i + (t + 1) by omega]
        exact h (t + 1) (by omega)), List.range'_succ]
      simp

lemma benchLoop_failure (draws : Nat → ℚ × ℚ) (execOk : Nat → Bool) :
    ∀ j rem i, j < rem → execOk (i + j) = false →
      (∀ t, t < j → execOk (i + t) = true) →
      benchLoop draws execOk i rem
        = ((List.range' i (j + 1)).map fun t => BenchEvent.query (benchQuery (draws t)))
          ++ [BenchEvent.aborted] := by
  intro j
  induction j with
  | zero =>
      intro rem i hrem hfail hpre
      match rem, hrem with
      | n + 1, _ =>
          rw [Nat.add_zero] at hfail
          simp only [benchLoop]
          rw [if_neg (by simp [hfail]), List.range'_succ]
          simp
  | succ m ihm =>
      intro rem i hrem hfail hpre
      match rem, hrem with
      | n + 1, _ =>
          have h0 : execOk i = true := by simpa using hpre 0 (by omega)
          simp only [benchLoop]
          rw [if_pos h0, ihm n (i + 1) (by omega)
            (by
              rw [show i + 1 + m = i + (m + 1) by omega]
              exact hfail)
            (fun t ht => by
              rw [show i + 1 + t = i + (t + 1) by omega]
              exact hpre (t + 1) (by omega))]
          simp [List.range'_succ]

lemma benchLoop_count_acquire (draws : Nat → ℚ × ℚ) (execOk : Nat → Bool) :
    ∀ rem i, (benchLoop draws execOk i rem).count BenchEvent.acquireConn = 0 := by
  intro rem
  induction rem with
  | zero =>
      intro i
      simp [benchLoop]
  | succ n ihn =>
      intro i
      simp only [benchLoop]
      by_cases h : execOk i = true
      · rw [if_pos h]
        simp [List.count_cons, ihn (i + 1)]
      · rw [if_neg h]
        simp [List.count_cons]

/-! ### Claim theorems -/

/-- Claim C1: for an input of n well-formed rows the upload issues exactly
ceil(n/10000) bulk inserts totalling n rows: every insert except possibly the
last carries exactly 10000 rows, a final partial insert carries n mod 10000
rows exactly when that remainder is non-zero, zero rows give zero inserts and
no error, and an exact multiple of 10000 gives no trailing partial batch. -/
theorem upload_batch_sizes (rs : List CityRecord) :
    (insert_data true (rs.map some)).2 = true
    ∧ (insertsOf (insert_data true (rs.map some)).1).length = (rs.length + 9999) / 10000
    ∧ ((insertsOf (insert_data true (rs.map some)).1).map List.length).sum = rs.length
    ∧ (∀ s ∈ ((insertsOf (insert_data true (rs.map some)).1).map List.length).dropLast,
        s = 10000)
    ∧ (rs.length % 10000 ≠ 0 →
        ((insertsOf (insert_data true (rs.map some)).1).map List.length).getLast?
          = some (rs.length % 10000))
    ∧ (rs.length % 10000 = 0 →
        ∀ s ∈ (insertsOf (insert_data true (rs.map some)).1).map List.length, s = 10000)
    ∧ (rs = [] → insertsOf (insert_data true (rs.map some)).1 = []) := by
  have hins : insertsOf (insert_data true (rs.map some)).1
      = chunk batchSize (rs.map NewCity.fromCityRecord) := by
    rw [insertsOf_insert_data, insertLoop_map_some_inserts rs [] 0 (by decide)]
    rfl
  have hmap : (insertsOf (insert_data true (rs.map some)).1).map List.length
      = chunkSizes 10000 rs.length := by
    rw [hins, chunk_map_length batchSize (by decide), List.length_map]
    rfl
  refine ⟨?_, ?_, ?_, ?_, ?_, ?_, ?_⟩
  · rw [insert_data_true_snd]
    exact insertLoop_map_some_ok rs [] 0
  · have hlen := congrArg List.length hmap
    rw [List.length_map] at hlen
    rw [hlen, chunkSizes_length]
  · rw [hmap, chunkSizes_sum]
  · rw [hmap]
    exact chunkSizes_dropLast rs.length
  · intro h
    rw [hmap]
    exact chunkSizes_getLast rs.length h
  · intro h
    rw [hmap]
    exact chunkSizes_all_full rs.length h
  · intro h
    subst h
    rfl

/-- Witness for C1 at a concrete 3-row input: one insert is issued and the
final (only) batch carries 3 rows. -/
theorem upload_batch_sizes_witness :
    (insert_data true ((List.replicate 3 sampleRecord).map some)).2 = true
    ∧ (insertsOf (insert_data true ((List.replicate 3 sampleRecord).map some)).1).length = 1
    ∧ ((insertsOf (insert_data true ((List.replicate 3 sampleRecord).map some)).1).map
        List.length).getLast? = some 3 := by
  refine ⟨(upload_batch_sizes (List.replicate 3 sampleRecord)).1, ?_, ?_⟩
  · rw [(upload_batch_sizes (List.replicate 3 sampleRecord)).2.1]
    decide
  · rw [(upload_batch_sizes (List.replicate 3 sampleRecord)).2.2.2.2.1 (by decide)]
    decide

/-- Claim C2: the record-to-row mapping copies the four string fields
verbatim and builds the location point with x = longitude, y = latitude and
SRID 4326. -/
theorem newCity_from_cityRecord_spec (cr : CityRecord) :
    (NewCity.fromCityRecord cr).country = cr.country
    ∧ (NewCity.fromCityRecord cr).city = cr.city
    ∧ (NewCity.fromCityRecord cr).accent_city = cr.accent_city
    ∧ (NewCity.fromCityRecord cr).region = cr.region
    ∧ (NewCity.fromCityRecord cr).location.x = cr.longitude
    ∧ (NewCity.fromCityRecord cr).location.y = cr.latitude
    ∧ (NewCity.fromCityRecord cr).location.srid = some 4326 :=
  ⟨rfl, rfl, rfl, rfl, rfl, rfl, rfl⟩

/-- Witness for C2: the record with longitude 2.35 and latitude 48.85 maps to
the point (x = 2.35, y = 48.85, SRID 4326). -/
theorem newCity_from_cityRecord_witness :
    (NewCity.fromCityRecord
        { country := "France", city := "paris", accent_city := "Paris", region := "A8",
          latitude := 48.85, longitude := 2.35 }).location.x = 2.35
    ∧ (NewCity.fromCityRecord
        { country := "France", city := "paris", accent_city := "Paris", region := "A8",
          latitude := 48.85, longitude := 2.35 }).location.y = 48.85
    ∧ (NewCity.fromCityRecord
        { country := "France", city := "paris", accent_city := "Paris", region := "A8",
          latitude := 48.85, longitude := 2.35 }).location.srid = some 4326 :=
  ⟨(newCity_from_cityRecord_spec _).2.2.2.2.1,
    (newCity_from_cityRecord_spec _).2.2.2.2.2.1,
    (newCity_from_cityRecord_spec _).2.2.2.2.2.2⟩

/-- Claim C3, amended: a progress line is printed immediately before each
batch insert is sent, but the numbers printed do not count from 1: the full
batches are numbered consecutively from 0, and the final partial batch, when
present, is numbered f + 1 where f is the number of full batches (so the
number f is skipped whenever a full batch precedes the partial one). -/
theorem upload_progress_lines (rs : List CityRecord) :
    (∀ i b, (insert_data true (rs.map some)).1[i]? = some (.insert b) →
        1 ≤ i ∧ ((insert_data true (rs.map some)).1[i - 1]?.map isProgress) = some true)
    ∧ progressOf (insert_data true (rs.map some)).1
        = List.range' 0 (rs.length / 10000)
          ++ (if rs.length % 10000 = 0 then [] else [rs.length / 10000 + 1]) := by
  constructor
  · intro i b hi
    rw [insert_data_true_fst] at hi ⊢
    match i with
    | 0 => simp at hi
    | 1 => simp at hi
    | 2 => simp at hi
    | 3 => simp at hi
    | 4 => simp at hi
    | n + 5 =>
        rw [List.getElem?_cons_succ, List.getElem?_cons_succ, List.getElem?_cons_succ,
          List.getElem?_cons_succ, List.getElem?_cons_succ] at hi
        obtain ⟨h1, h2⟩ := insertLoop_progress_before_insert (rs.map some) [] 0 n b hi
        refine ⟨by omega, ?_⟩
        match n, h1 with
        | m + 1, _ =>
            rw [show m + 1 + 5 - 1 = m + 5 by omega, List.getElem?_cons_succ,
              List.getElem?_cons_succ, List.getElem?_cons_succ, List.getElem?_cons_succ,
              List.getElem?_cons_succ]
            exact h2
  · rw [progressOf_insert_data, insertLoop_map_some_progress rs [] 0 (by decide)]
    simp only [List.length_nil, Nat.zero_add]
    rfl

/-- Counterexample for C3 as stated: with exactly 10000 well-formed rows a
single (full) batch is inserted and its progress line prints 0, not 1. -/
theorem upload_progress_lines_cex :
    (progressOf (insert_data true
        ((List.replicate 10000 sampleRecord).map some)).1).head? = some 0
    ∧ (progressOf (insert_data true
        ((List.replicate 10000 sampleRecord).map some)).1).head? ≠ some 1 := by
  have h : progressOf (insert_data true
      ((List.replicate 10000 sampleRecord).map some)).1 = [0] := by
    rw [progressOf_insert_data,
      insertLoop_map_some_progress (List.replicate 10000 sampleRecord) [] 0 (by decide)]
    rw [List.length_replicate]
    norm_num [batchSize, List.range'_one]
  rw [h]
  exact ⟨rfl, by decide⟩

/-- Witness for C3 at a concrete one-row input: the insert event at index 7 is
immediately preceded by a progress event, and the only printed number is 1
(one partial batch, zero full batches). -/
theorem upload_progress_lines_witness :
    (1 ≤ 7 ∧ (((insert_data true ([sampleRecord].map some)).1[7 - 1]?).map isProgress)
        = some true)
    ∧ progressOf (insert_data true ([sampleRecord].map some)).1
        = List.range' 0 ([sampleRecord].length / 10000)
          ++ (if [sampleRecord].length % 10000 = 0 then []
              else [[sampleRecord].length / 10000 + 1]) :=
  ⟨(upload_progress_lines [sampleRecord]).1 7 [NewCity.fromCityRecord sampleRecord]
      (by decide),
    (upload_progress_lines [sampleRecord]).2⟩

/-- Claim C10: the concatenation of the inserted batches, in issue order,
is exactly the input rows mapped to `NewCity` in their original order: no
row is dropped, duplicated or reordered. -/
theorem upload_rows_preserved (rs : List CityRecord) :
    (insertsOf (insert_data true (rs.map some)).1).flatten
      = rs.map NewCity.fromCityRecord := by
  rw [insertsOf_insert_data, insertLoop_map_some_inserts rs [] 0 (by decide),
    List.nil_append, chunk_flatten batchSize (by decide)]

/-- Witness for C10 at a concrete one-row input. -/
theorem upload_rows_preserved_witness :
    (insertsOf (insert_data true ([sampleRecord].map some)).1).flatten
      = [sampleRecord].map NewCity.fromCityRecord :=
  upload_rows_preserved [sampleRecord]

/-- Claim C5: a row that fails to parse terminates the upload fatally at
that row: every row before it (and nothing after it) has been read, the
inserts issued are exactly the full 10000-row batches of the rows that
preceded it (so the batch that would have contained the failing row is never
inserted, while every earlier batch remains issued). -/
theorem upload_parse_failure (pre : List CityRecord) (post : List (Option CityRecord)) :
    (insert_data true (pre.map some ++ none :: post)).2 = false
    ∧ parsesOf (insert_data true (pre.map some ++ none :: post)).1
        = pre.map some ++ [none]
    ∧ insertsOf (insert_data true (pre.map some ++ none :: post)).1
        = chunk 10000 ((pre.map NewCity.fromCityRecord).take
            (10000 * (pre.length / 10000)))
    ∧ ∀ b ∈ insertsOf (insert_data true (pre.map some ++ none :: post)).1,
        b.length = 10000 := by
  have hins : insertsOf (insert_data true (pre.map some ++ none :: post)).1
      = chunk 10000 ((pre.map NewCity.fromCityRecord).take
          (10000 * (pre.length / 10000))) := by
    rw [insertsOf_insert_data, insertLoop_fail_inserts pre post [] 0 (by decide)]
    simp only [List.nil_append, List.length_nil, Nat.zero_add]
    rfl
  refine ⟨?_, ?_, hins, ?_⟩
  · rw [insert_data_true_snd]
    exact insertLoop_fail_flag pre post [] 0
  · rw [parsesOf_insert_data, insertLoop_parses, readRows_map_some_append_none]
  · intro b hb
    rw [hins] at hb
    have hlen := chunk_map_length 10000 (by decide)
        ((pre.map NewCity.fromCityRecord).take (10000 * (pre.length / 10000)))
    have hdm := Nat.div_mul_le_self pre.length 10000
    have htk : ((pre.map NewCity.fromCityRecord).take
        (10000 * (pre.length / 10000))).length = 10000 * (pre.length / 10000) := by
      rw [List.length_take, List.length_map]
      omega
    have hmem : b.length ∈ (chunk 10000 ((pre.map NewCity.fromCityRecord).take
        (10000 * (pre.length / 10000)))).map List.length := List.mem_map_of_mem _ hb
    rw [hlen, htk] at hmem
    exact chunkSizes_all_full _ (by omega) _ hmem

/-- Witness for C5 at a concrete input: one good row, then a failing row,
then a further row; the upload fails and reads exactly the good row and the
failing row. -/
theorem upload_parse_failure_witness :
    (insert_data true ([sampleRecord].map some ++ none :: [some sampleRecord])).2 = false
    ∧ parsesOf
        (insert_data true ([sampleRecord].map some ++ none :: [some sampleRecord])).1
        = [sampleRecord].map some ++ [none] :=
  ⟨(upload_parse_failure [sampleRecord] [some sampleRecord]).1,
    (upload_parse_failure [sampleRecord] [some sampleRecord]).2.1⟩

/-- Claim C9: in the upload command the migrations run (on the acquired
connection) strictly before the archive is opened, before extraction, before
any CSV row is parsed and before any insert is issued; when the migrations
fail nothing further happens and in particular no insert is ever issued. -/
theorem upload_migration_first (mOk : Bool) (rows : List (Option CityRecord)) :
    (mOk = false → insertsOf (insert_data mOk rows).1 = []
        ∧ (insert_data mOk rows).2 = false)
    ∧ (insert_data true rows).1.take 5
        = [.getConn, .migrate, .openArchive, .extractArchive, .openCsv]
    ∧ (∀ i b, (insert_data true rows).1[i]? = some (.insert b) → 5 ≤ i)
    ∧ (∀ i r, (insert_data true rows).1[i]? = some (.parseRow r) → 5 ≤ i) := by
  refine ⟨?_, ?_, ?_, ?_⟩
  · intro h
    subst h
    exact ⟨rfl, rfl⟩
  · rw [insert_data_true_fst]
    rfl
  · intro i b hi
    by_contra hlt
    push_neg at hlt
    rw [insert_data_true_fst] at hi
    interval_cases i <;> simp at hi
  · intro i r hi
    by_contra hlt
    push_neg at hlt
    rw [insert_data_true_fst] at hi
    interval_cases i <;> simp at hi

/-- Witness for C9 at concrete inputs: with failing migrations no insert is
issued, and with successful migrations the insert of a one-row input sits at
index 7, after the five setup events. -/
theorem upload_migration_first_witness :
    (insertsOf (insert_data false [some sampleRecord]).1 = []
        ∧ (insert_data false [some sampleRecord]).2 = false)
    ∧ 5 ≤ 7 :=
  ⟨(upload_migration_first false [some sampleRecord]).1 rfl,
    (upload_migration_first false [some sampleRecord]).2.2.1 7
      [NewCity.fromCityRecord sampleRecord] (by decide)⟩

/-- Claim C4 concerns a defect: the benchmark's random point takes its x from
the first draw, which the code samples from [-90, 90), and its y from the
second draw, sampled from [-180, 180); so a draw permitted by the code (here
(0, 170)) produces a query point whose y lies outside [-90, 90), contrary to
the claimed x from [-180, 180) / y from [-90, 90) convention. -/
theorem bench_random_point_ranges :
    validDraw (0, 170)
    ∧ (benchQuery ((0 : ℚ), (170 : ℚ))).ordered_by_distance_from.x = 0
    ∧ (benchQuery ((0 : ℚ), (170 : ℚ))).ordered_by_distance_from.y = 170
    ∧ ¬((-90 : ℚ) ≤ (benchQuery ((0 : ℚ), (170 : ℚ))).ordered_by_distance_from.y
        ∧ (benchQuery ((0 : ℚ), (170 : ℚ))).ordered_by_distance_from.y < 90) :=
  ⟨by decide, rfl, rfl, by decide⟩

/-- Claim C6: the bench command acquires exactly one pooled connection before
the loop, issues 500 queries (each ordering the cities table by 2D distance
from the iteration's random point, limited to 500 rows) when every execution
succeeds, and then prints the elapsed time; the first execution error aborts
all remaining iterations. -/
theorem bench_get_trace (draws : Nat → ℚ × ℚ) (execOk : Nat → Bool) :
    ((∀ i, i < 500 → execOk i = true) →
      bench_get draws execOk
        = BenchEvent.acquireConn ::
            (((List.range 500).map fun t => BenchEvent.query (benchQuery (draws t)))
              ++ [BenchEvent.printElapsed]))
    ∧ (∀ j, j < 500 → execOk j = false → (∀ t, t < j → execOk t = true) →
      bench_get draws execOk
        = BenchEvent.acquireConn ::
            (((List.range (j + 1)).map fun t => BenchEvent.query (benchQuery (draws t)))
              ++ [BenchEvent.aborted]))
    ∧ (bench_get draws execOk).count BenchEvent.acquireConn = 1
    ∧ (∀ d, (benchQuery d).limit = 500 ∧ (benchQuery d).table_name = "cities"
        ∧ (benchQuery d).ordered_by_distance_from = Point.new d.1 d.2 (some 4326)) := by
  refine ⟨?_, ?_, ?_, ?_⟩
  · intro h
    unfold bench_get
    rw [benchLoop_success draws execOk 500 0 (fun t ht => by simpa using h t ht),
      List.range_eq_range']
  · intro j hj hfail hpre
    unfold bench_get
    rw [benchLoop_failure draws execOk j 500 0 hj (by simpa using hfail)
      (fun t ht => by simpa using hpre t ht), List.range_eq_range']
  · unfold bench_get
    rw [List.count_cons_self, benchLoop_count_acquire draws execOk 500 0]
  · intro d
    exact ⟨rfl, rfl, rfl⟩

/-- Witness for C6: with always-successful executions and a constant draw,
the trace is one connection acquisition, 500 queries, one elapsed print. -/
theorem bench_get_trace_witness :
    bench_get (fun _ => ((0 : ℚ), (0 : ℚ))) (fun _ => true)
      = BenchEvent.acquireConn ::
          (((List.range 500).map fun t =>
              BenchEvent.query (benchQuery ((fun _ => ((0 : ℚ), (0 : ℚ))) t)))
            ++ [BenchEvent.printElapsed]) :=
  (bench_get_trace (fun _ => ((0 : ℚ), (0 : ℚ))) (fun _ => true)).1 (fun _ _ => rfl)

/-- Claim C7: `init_connection_pool` terminates fatally exactly when
`DATABASE_URL` is absent or the pool cannot be built; otherwise the returned
pool has max size 20, min idle 1 and max lifetime 30 seconds. -/
theorem init_connection_pool_spec (database_url : Option String) (buildOk : Bool) :
    (init_connection_pool database_url buildOk = none
      ↔ database_url = none ∨ buildOk = false)
    ∧ (∀ p, init_connection_pool database_url buildOk = some p →
        p.config
          = { max_size := 20, min_idle := some 1, max_lifetime_secs := some 30 }) := by
  cases database_url with
  | none =>
      refine ⟨by simp [init_connection_pool], ?_⟩
      intro p hp
      simp [init_connection_pool] at hp
  | some s =>
      cases buildOk with
      | false =>
          refine ⟨by simp [init_connection_pool], ?_⟩
          intro p hp
          simp [init_connection_pool] at hp
      | true =>
          refine ⟨by simp [init_connection_pool], ?_⟩
          intro p hp
          simp [init_connection_pool] at hp
          rw [← hp]

/-- Witness for C7: a present URL with a successful build yields the 20/1/30s
configuration, and an absent URL is fatal. -/
theorem init_connection_pool_spec_witness :
    (init_connection_pool none true = none
      ↔ ((none : Option String) = none ∨ true = false))
    ∧ Pool.config
        { config := { max_size := 20, min_idle := some 1, max_lifetime_secs := some 30 } }
        = { max_size := 20, min_idle := some 1, max_lifetime_secs := some 30 } :=
  ⟨(init_connection_pool_spec none true).1,
    (init_connection_pool_spec (some "postgres") true).2
      { config := { max_size := 20, min_idle := some 1, max_lifetime_secs := some 30 } }
      rfl⟩

/-- Claim C8: every geometry point the program constructs carries SRID 4326:
the location of every mapped record, every row of every issued insert batch
(whatever the input, migration outcome included), and every benchmark query
point. -/
theorem srid_always_4326 :
    (∀ cr, (NewCity.fromCityRecord cr).location.srid = some 4326)
    ∧ (∀ d, (benchQuery d).ordered_by_distance_from.srid = some 4326)
    ∧ (∀ (mOk : Bool) rows b c, b ∈ insertsOf (insert_data mOk rows).1 → c ∈ b →
        c.location.srid = some 4326) := by
  refine ⟨fun cr => rfl, fun d => rfl, ?_⟩
  intro mOk rows b c hb hc
  cases mOk with
  | false =>
      simp [insert_data, insertsOf] at hb
  | true =>
      rw [insertsOf_insert_data] at hb
      exact insertLoop_srid rows [] 0 (by simp) b hb c hc

/-- Witness for C8: a concrete query point and a row of a concretely issued
insert batch both carry SRID 4326. -/
theorem srid_always_4326_witness :
    (benchQuery ((1 : ℚ), (2 : ℚ))).ordered_by_distance_from.srid = some 4326
    ∧ (NewCity.fromCityRecord sampleRecord).location.srid = some 4326 :=
  ⟨srid_always_4326.2.1 (1, 2),
    srid_always_4326.2.2 true [some sampleRecord]
      [NewCity.fromCityRecord sampleRecord] (NewCity.fromCityRecord sampleRecord)
      (by decide) (by decide)⟩
